import Mathlib

/-!
Verification of the titfortat repository: a repeated prisoner's-dilemma
game, a set of bot strategies, a match runner and a tournament / fitness
evaluator. Definitions are shallow embeddings of the Go source: machine
ints become `Int` (scores and rounds stay far from any overflow bound),
the unbounded `for !game.GameOver()` loop becomes a fuel-indexed
recursion together with theorems showing the loop always exits through
`GameOver` long before the fuel runs out, and randomness is made explicit
as function parameters.
-/

/-- Go constant `Cooperate = iota` (value 0). -/
def Cooperate : Int := 0

/-- Go constant `Defect` (value 1). -/
def Defect : Int := 1

/-- The mutable `Game` struct: cumulative scores, round counter and the
previous-round choices of both players. -/
structure Game where
  AScore : Int
  BScore : Int
  Round : Int
  APrevious : Int
  BPrevious : Int
deriving DecidableEq

/-- `CreateGame` from the source: every field is initialised to 0,
including `APrevious` and `BPrevious`. -/
def CreateGame : Game :=
  { AScore := 0
    BScore := 0
    Round := 0
    APrevious := 0
    BPrevious := 0 }

/-- Read-only snapshot handed to bots. -/
structure GameState where
  aPrevious : Int
  bPrevious : Int
  round : Int
deriving DecidableEq

/-- A pair of choices submitted to `Game.Play`. -/
structure gameDecision where
  aChoice : Int
  bChoice : Int
deriving DecidableEq

/-- `Game.State` from the source. -/
def Game.State (g : Game) : GameState :=
  { aPrevious := g.APrevious
    bPrevious := g.BPrevious
    round := g.Round }

/-- `Game.GameOver` from the source: true exactly when `Round > 10`. -/
def Game.GameOver (g : Game) : Bool :=
  decide (g.Round > 10)

/-- `Game.Play` from the source: four independent `if` statements apply
the payoff matrix, then the choices are recorded as the previous choices
and the round counter is incremented. The Go method mutates the receiver;
here it returns the updated record. -/
def Game.Play (g : Game) (d : gameDecision) : Game :=
  let g1 := if d.aChoice = Cooperate ∧ d.bChoice = Cooperate then
    { g with AScore := g.AScore + 1, BScore := g.BScore + 1 } else g
  let g2 := if d.aChoice = Defect ∧ d.bChoice = Defect then
    { g1 with AScore := g1.AScore - 1, BScore := g1.BScore - 1 } else g1
  let g3 := if d.aChoice = Cooperate ∧ d.bChoice = Defect then
    { g2 with BScore := g2.BScore + 3, AScore := g2.AScore - 2 } else g2
  let g4 := if d.aChoice = Defect ∧ d.bChoice = Cooperate then
    { g3 with AScore := g3.AScore + 3, BScore := g3.BScore - 2 } else g3
  { g4 with
    APrevious := d.aChoice
    BPrevious := d.bChoice
    Round := g4.Round + 1 }

/-- Payoff to player A, written directly from the spec's payoff-matrix
table, for the refinement comparison with `Game.Play`. -/
def specPayoffA (a b : Int) : Int :=
  if a = Cooperate ∧ b = Cooperate then 1
  else if a = Defect ∧ b = Defect then -1
  else if a = Cooperate ∧ b = Defect then -2
  else if a = Defect ∧ b = Cooperate then 3
  else 0

/-- Payoff to player B, written directly from the spec's payoff-matrix
table, for the refinement comparison with `Game.Play`. -/
def specPayoffB (a b : Int) : Int :=
  if a = Cooperate ∧ b = Cooperate then 1
  else if a = Defect ∧ b = Defect then -1
  else if a = Cooperate ∧ b = Defect then 3
  else if a = Defect ∧ b = Cooperate then -2
  else 0

/-- `TitForTatBot.Decision` from the source: defect exactly when the
`aPrevious` field of the state holds `Defect`. -/
def TitForTatBot.Decision (state : GameState) : Int :=
  if state.aPrevious = Defect then Defect else Cooperate

/-- `TitForTatBotReverse.Decision` from the source: defect exactly when
the `aPrevious` field holds `Cooperate`. -/
def TitForTatBotReverse.Decision (state : GameState) : Int :=
  if state.aPrevious = Cooperate then Defect else Cooperate

/-- `DefectBot.Decision` from the source. -/
def DefectBot.Decision (_state : GameState) : Int :=
  Defect

/-- `CooperateBot.Decision` from the source. -/
def CooperateBot.Decision (_state : GameState) : Int :=
  Cooperate

/-- One `Play` call of a match, recorded for the trace: the round counter
at the moment of the call and the decision pair submitted. -/
structure PlayEvent where
  round : Int
  dec : gameDecision
deriving DecidableEq

/-- Fuel bound used to embed the unbounded `for !game.GameOver()` loop;
the loop theorems show the loop always exits through `GameOver` after at
most 11 iterations, so any fuel of at least 11 yields the loop's true
result. -/
def matchFuel : Nat := 20

/-- The `for !game.GameOver()` loop shared by `runGames` and
`orgEvaluate`: while the game is not over, take both bots' decisions on
the current state snapshot and `Play` them. Returns the final game and
the trace of `Play` calls made by the loop. -/
def loopTrace : Nat → Game → (GameState → Int) → (GameState → Int) →
    Game × List PlayEvent
  | 0, g, _, _ => (g, [])
  | fuel + 1, g, a, b =>
    if g.GameOver then (g, [])
    else
      let d : gameDecision := ⟨a g.State, b g.State⟩
      match loopTrace fuel (g.Play d) a b with
      | (gf, t) => (gf, ⟨g.Round, d⟩ :: t)

/-- One match as run by `runGames`: create a game, play the seeding round
with the sentinel pair `(-1, -1)`, then run the loop. The trace includes
the seeding `Play` call. -/
def runMatch (a b : GameState → Int) : Game × List PlayEvent :=
  match loopTrace matchFuel (CreateGame.Play ⟨-1, -1⟩) a b with
  | (gf, t) => (gf, ⟨CreateGame.Round, ⟨-1, -1⟩⟩ :: t)

/-- The list `r, r+1, ..., r+n-1`, used to describe the round counters at
which the match loop calls `Play`. -/
def consecutive : Int → Nat → List Int
  | _, 0 => []
  | r, n + 1 => r :: consecutive (r + 1) n

/-- `Play` always increments the round counter by exactly one, whatever
the decision pair. -/
theorem Game.Play_round (g : Game) (d : gameDecision) :
    (g.Play d).Round = g.Round + 1 := by
  simp only [Game.Play]
  split <;> split <;> split <;> split <;> rfl

/-- Main loop lemma: if `n` more rounds remain until the horizon
(`g.Round + n = 11`) and the fuel covers them, the loop plays exactly `n`
rounds, at round counters `g.Round, g.Round+1, ..., 10`, and stops with
the round counter at 11 and `GameOver` true. -/
theorem loopTrace_run (n : Nat) :
    ∀ (fuel : Nat) (g : Game) (a b : GameState → Int),
      n ≤ fuel → g.Round + (n : Int) = 11 →
      (loopTrace fuel g a b).1.Round = 11 ∧
      (loopTrace fuel g a b).1.GameOver = true ∧
      (loopTrace fuel g a b).2.map PlayEvent.round = consecutive g.Round n := by
  induction n with
  | zero =>
    intro fuel g a b _ hg
    have hround : g.Round = 11 := by omega
    have hover : g.GameOver = true := by
      simp [Game.GameOver, hround]
    match fuel with
    | 0 => simp [loopTrace, hround, hover, consecutive]
    | fuel + 1 => simp [loopTrace, hround, hover, consecutive]
  | succ n ih =>
    intro fuel g a b hfuel hg
    match fuel with
    | fuel + 1 =>
      have hnotover : g.GameOver = false := by
        simp [Game.GameOver]
        omega
      have hstep : (g.Play ⟨a g.State, b g.State⟩).Round = g.Round + 1 :=
        Game.Play_round g _
      have hrec := ih fuel (g.Play ⟨a g.State, b g.State⟩) a b
        (by omega) (by rw [hstep]; push_cast at hg ⊢; omega)
      rw [hstep] at hrec
      rcases hpair : loopTrace fuel (g.Play ⟨a g.State, b g.State⟩) a b
        with ⟨gf, t⟩
      rw [hpair] at hrec
      simp only [loopTrace, hnotover, Bool.false_eq_true, if_false, hpair,
        List.map_cons]
      refine ⟨hrec.1, hrec.2.1, ?_⟩
      rw [hrec.2.2]
      rfl

/-- Which seat a bot occupies in a match: `b1` in `runGames` plays as A,
`b2` plays as B. -/
inductive Side where
  | A : Side
  | B : Side
deriving DecidableEq

/-- Modelled from the spec: the opponent's previous choice from a given
seat, the quantity the spec says TitForTat reacts to. For the A seat the
opponent is B, so it is the `bPrevious` field; for the B seat it is
`aPrevious`. -/
def specOpponentPrevious : Side → GameState → Int
  | Side.A, s => s.bPrevious
  | Side.B, s => s.aPrevious

/-- Helper shared by several claims: whatever the two decision functions,
the `runGames` match makes its `Play` calls at round counters 0 through
10 and its final game has round counter 11 with `GameOver` true. -/
theorem runMatch_spec (a b : GameState → Int) :
    (runMatch a b).2.map PlayEvent.round =
      [0, 1, 2, 3, 4, 5, 6, 7, 8, 9, 10] ∧
    (runMatch a b).1.Round = 11 ∧
    (runMatch a b).1.GameOver = true := by
  have hg1 : CreateGame.Play ⟨-1, -1⟩ =
      { AScore := 0, BScore := 0, Round := 1,
        APrevious := -1, BPrevious := -1 } := by decide
  have h := loopTrace_run 10 matchFuel (CreateGame.Play ⟨-1, -1⟩) a b
    (by decide) (by rw [hg1]; norm_num)
  rcases hpair : loopTrace matchFuel (CreateGame.Play ⟨-1, -1⟩) a b
    with ⟨gf, t⟩
  rw [hpair, hg1] at h
  have hrm : runMatch a b = (gf, ⟨CreateGame.Round, ⟨-1, -1⟩⟩ :: t) := by
    simp only [runMatch, hpair]
  have hmap : (runMatch a b).2.map PlayEvent.round =
      [0, 1, 2, 3, 4, 5, 6, 7, 8, 9, 10] := by
    rw [hrm]
    simp only [List.map_cons]
    rw [h.2.2]
    decide
  exact ⟨hmap, by rw [hrm]; exact h.1, by rw [hrm]; exact h.2.1⟩

/-- Helper: a match always has exactly 11 `Play` calls in its trace. -/
theorem runMatch_length (a b : GameState → Int) :
    (runMatch a b).2.length = 11 := by
  have hlen := congrArg List.length (runMatch_spec a b).1
  simpa using hlen

/-- C4: for any two decision functions, the match of `runGames` makes
exactly 11 `Play` calls (1 seeding + 10 scored), at round counters 0
through 10 where `GameOver` is still false, ends with the round counter
at 11 where `GameOver` first becomes true, and `GameOver` holds exactly
when the round counter exceeds 10. -/
theorem match_loop_eleven_plays (a b : GameState → Int) :
    (runMatch a b).2.map PlayEvent.round =
      [0, 1, 2, 3, 4, 5, 6, 7, 8, 9, 10] ∧
    (runMatch a b).2.length = 11 ∧
    ((runMatch a b).2.map PlayEvent.round).all
      (fun r => decide (r ≤ 10)) = true ∧
    (runMatch a b).1.Round = 11 ∧
    (runMatch a b).1.GameOver = true ∧
    (∀ g : Game, g.GameOver = true ↔ 10 < g.Round) := by
  have h := runMatch_spec a b
  refine ⟨h.1, runMatch_length a b, ?_, h.2.1, h.2.2, ?_⟩
  · rw [h.1]; decide
  · intro g
    simp [Game.GameOver]

/-- C2 counterexample: there is a seat and a state where TitForTatBot's
answer is not determined by the opponent's previous choice: on the A
seat with state (aPrevious = Cooperate, bPrevious = Defect) the opponent
defected last round, yet the bot cooperates, because the code reads the
`aPrevious` field on both seats. -/
theorem titForTat_not_opponent_previous_as_A :
    ¬ ∀ (side : Side) (s : GameState),
        (TitForTatBot.Decision s = Defect ↔
          specOpponentPrevious side s = Defect) := by
  intro h
  have h2 := (h Side.A ⟨Cooperate, Defect, 3⟩).mpr (by decide)
  exact absurd h2 (by decide)

/-- C2 amended: TitForTatBot defects exactly when the `aPrevious` field
holds Defect and cooperates otherwise — which is the opponent's previous
choice only on the B seat — and it cooperates on the state left by the
seeding round. -/
theorem titForTat_follows_aPrevious :
    (∀ s : GameState,
        (TitForTatBot.Decision s = Defect ↔ s.aPrevious = Defect) ∧
        (TitForTatBot.Decision s = Cooperate ↔ s.aPrevious ≠ Defect) ∧
        (TitForTatBot.Decision s = Defect ↔
          specOpponentPrevious Side.B s = Defect)) ∧
    TitForTatBot.Decision { aPrevious := -1, bPrevious := -1, round := 1 } =
      Cooperate := by
  constructor
  · intro s
    simp only [TitForTatBot.Decision, specOpponentPrevious]
    by_cases hs : s.aPrevious = Defect
    · simp [hs, Cooperate, Defect]
    · simp [hs, Cooperate, Defect]
  · decide

/-- Evaluation of `titForTat_follows_aPrevious` at a concrete state. -/
theorem titForTat_follows_aPrevious_witness :
    (TitForTatBot.Decision ⟨1, 0, 4⟩ = Defect ↔
      (⟨1, 0, 4⟩ : GameState).aPrevious = Defect) ∧
    (TitForTatBot.Decision ⟨1, 0, 4⟩ = Cooperate ↔
      (⟨1, 0, 4⟩ : GameState).aPrevious ≠ Defect) ∧
    (TitForTatBot.Decision ⟨1, 0, 4⟩ = Defect ↔
      specOpponentPrevious Side.B ⟨1, 0, 4⟩ = Defect) :=
  titForTat_follows_aPrevious.1 ⟨1, 0, 4⟩

/-- C3: evaluating the actual match of TitForTatBot (seat A) against
DefectBot (seat B): after the seeding round every one of the 10 scored
rounds is played as (Cooperate, Defect) — TitForTatBot never retaliates,
because it reads its own previous choice on the A seat — so the final
scores are -20 and 30, not the -11 and -6 a tit-for-tat strategy would
produce. -/
theorem titForTat_vs_alwaysDefect_actual_scores :
    (runMatch TitForTatBot.Decision DefectBot.Decision).1 =
      { AScore := -20, BScore := 30, Round := 11,
        APrevious := 0, BPrevious := 1 } ∧
    (runMatch TitForTatBot.Decision DefectBot.Decision).2 =
      [⟨0, ⟨-1, -1⟩⟩, ⟨1, ⟨0, 1⟩⟩, ⟨2, ⟨0, 1⟩⟩, ⟨3, ⟨0, 1⟩⟩,
       ⟨4, ⟨0, 1⟩⟩, ⟨5, ⟨0, 1⟩⟩, ⟨6, ⟨0, 1⟩⟩, ⟨7, ⟨0, 1⟩⟩,
       ⟨8, ⟨0, 1⟩⟩, ⟨9, ⟨0, 1⟩⟩, ⟨10, ⟨0, 1⟩⟩] := by
  decide

/-- C1: one call to `Play` with valid choices adds exactly the payoff
matrix entries to the two scores, records the two choices as the previous
choices, increments `Round` by one, and changes nothing else (the record
equality fixes all five fields of the resulting `Game`). -/
theorem play_applies_payoff_matrix (g : Game) (a b : Int)
    (ha : a = Cooperate ∨ a = Defect) (hb : b = Cooperate ∨ b = Defect) :
    g.Play ⟨a, b⟩ =
      { AScore := g.AScore + specPayoffA a b
        BScore := g.BScore + specPayoffB a b
        Round := g.Round + 1
        APrevious := a
        BPrevious := b } := by
  rcases ha with ha | ha <;> rcases hb with hb | hb <;>
    subst ha <;> subst hb <;>
    simp [Game.Play, specPayoffA, specPayoffB, Cooperate, Defect] <;>
    omega

/-- Witness for C1 at concrete inputs: the fresh game played with
(Cooperate, Defect) moves to scores (-2, 3), round 1. -/
theorem play_applies_payoff_matrix_witness :
    ((0 : Int) = Cooperate ∨ (0 : Int) = Defect) ∧
    ((1 : Int) = Cooperate ∨ (1 : Int) = Defect) ∧
    CreateGame.Play ⟨0, 1⟩ =
      { AScore := CreateGame.AScore + specPayoffA 0 1
        BScore := CreateGame.BScore + specPayoffB 0 1
        Round := CreateGame.Round + 1
        APrevious := 0
        BPrevious := 1 } :=
  ⟨by decide, by decide,
    play_applies_payoff_matrix CreateGame 0 1 (by decide) (by decide)⟩

/-- The threshold adapter of `orgEvaluate`: the external network is
modelled as an opaque function from the two sensor values (the previous
choices) to its output activation; an output strictly above 0.5 is
mapped to Defect, anything else to Cooperate. -/
def netDecision (net : Int → Int → ℚ) (s : GameState) : Int :=
  if (1 / 2 : ℚ) < net s.aPrevious s.bPrevious then Defect else Cooperate

/-- `orgEvaluate` from the source: a fresh game is looped to completion
against the opponent (note: with no seeding round), the candidate's
fitness is the final A score, and `IsWinner` is set from the parity of
an independent random draw `rand.Intn(10)`, modelled as the explicit
parameter `r`. -/
def orgEvaluate (net : Int → Int → ℚ) (opp : GameState → Int)
    (r : Nat) : Int × Bool :=
  ((loopTrace matchFuel CreateGame (netDecision net) opp).1.AScore,
   decide (r % 2 = 0))

/-- C5 counterexample: no fixed threshold explains the winner flag. Two
evaluations of the same candidate against the same opponent have the
same fitness but opposite winner flags (the flag comes from the parity
of the random draw, not from the score). -/
theorem orgEvaluate_winner_flag_not_threshold :
    ¬ ∃ T : Int, ∀ (net : Int → Int → ℚ) (opp : GameState → Int) (r : Nat),
        ((orgEvaluate net opp r).2 = true ↔ T < (orgEvaluate net opp r).1) := by
  rintro ⟨T, hT⟩
  have h0 := hT (fun _ _ => 0) (fun _ => 0) 0
  have h1 := hT (fun _ _ => 0) (fun _ => 0) 1
  have hf : T < (orgEvaluate (fun _ _ => 0) (fun _ => 0) 1).1 := h0.mp (by decide)
  exact absurd (h1.mpr hf) (by decide)

/-- C5 amended: `orgEvaluate` plays a single match — 11 scored rounds
with no seeding round — reports the final A score as fitness, and sets
the winner flag from the parity of the independent random draw, so the
flag does not depend on the candidate, the opponent or the score. -/
theorem orgEvaluate_fitness_and_random_winner
    (net : Int → Int → ℚ) (opp : GameState → Int) (r : Nat) :
    (orgEvaluate net opp r).1 =
      (loopTrace matchFuel CreateGame (netDecision net) opp).1.AScore ∧
    (loopTrace matchFuel CreateGame (netDecision net) opp).2.length = 11 ∧
    (loopTrace matchFuel CreateGame (netDecision net) opp).1.GameOver = true ∧
    (orgEvaluate net opp r).2 = decide (r % 2 = 0) ∧
    (∀ (net2 : Int → Int → ℚ) (opp2 : GameState → Int),
      (orgEvaluate net opp r).2 = (orgEvaluate net2 opp2 r).2) := by
  have h := loopTrace_run 11 matchFuel CreateGame (netDecision net) opp
    (by decide) (by decide)
  refine ⟨rfl, ?_, h.2.1, rfl, fun _ _ => rfl⟩
  have hlen := congrArg List.length h.2.2
  rw [List.length_map] at hlen
  rw [hlen]
  decide

/-- C6 counterexample: an out-of-domain choice (2) does not fail the
match. The single `Play` leaves the scores alone, records 2 as the
previous choice and moves to round 1 with the game not over; a whole
match in which agent A always answers 2 runs to normal completion with
all 11 `Play` calls and final scores 0/0. -/
theorem invalid_choice_match_continues :
    (CreateGame.Play ⟨2, Cooperate⟩).Round = 1 ∧
    (CreateGame.Play ⟨2, Cooperate⟩).GameOver = false ∧
    (CreateGame.Play ⟨2, Cooperate⟩).AScore = 0 ∧
    (CreateGame.Play ⟨2, Cooperate⟩).BScore = 0 ∧
    (runMatch (fun _ => 2) (fun _ => Cooperate)).1 =
      { AScore := 0, BScore := 0, Round := 11,
        APrevious := 2, BPrevious := 0 } ∧
    (runMatch (fun _ => 2) (fun _ => Cooperate)).2.length = 11 := by
  decide

/-- C6 amended: a choice outside Cooperate/Defect is silently accepted:
the round scores zero for both players, the invalid value is recorded as
the previous choice, the round counter advances, and the match loop
continues to its normal 11-play completion — nothing fails. -/
theorem play_invalid_choice_silent (g : Game) (a b : Int)
    (ha0 : a ≠ Cooperate) (ha1 : a ≠ Defect) :
    g.Play ⟨a, b⟩ =
      { AScore := g.AScore, BScore := g.BScore, Round := g.Round + 1,
        APrevious := a, BPrevious := b } ∧
    (runMatch (fun _ => a) (fun _ => b)).1.Round = 11 ∧
    (runMatch (fun _ => a) (fun _ => b)).2.length = 11 := by
  refine ⟨?_, (runMatch_spec _ _).2.1, runMatch_length _ _⟩
  simp [Game.Play, ha0, ha1]

/-- Evaluation of `play_invalid_choice_silent` at the concrete invalid
choice 7. -/
theorem play_invalid_choice_silent_witness :
    ((7 : Int) ≠ Cooperate) ∧ ((7 : Int) ≠ Defect) ∧
    (CreateGame.Play ⟨7, 0⟩ =
      { AScore := CreateGame.AScore, BScore := CreateGame.BScore,
        Round := CreateGame.Round + 1, APrevious := 7, BPrevious := 0 } ∧
     (runMatch (fun _ => (7 : Int)) (fun _ => (0 : Int))).1.Round = 11 ∧
     (runMatch (fun _ => (7 : Int)) (fun _ => (0 : Int))).2.length = 11) :=
  ⟨by decide, by decide,
    play_invalid_choice_silent CreateGame 7 0 (by decide) (by decide)⟩

/-- C7 counterexample: the previous-choice fields of a freshly created
game are 0, which is exactly `Cooperate` — a valid choice, not a value
outside the choice domain. -/
theorem createGame_previous_is_cooperate :
    CreateGame.APrevious = Cooperate ∧ CreateGame.BPrevious = Cooperate := by
  decide

/-- C7 amended: `CreateGame` zero-initialises every field, so the scores
and round counter are 0 and the previous-choice fields are 0 = Cooperate;
the out-of-domain sentinel -1 only enters the previous-choice fields
through the seeding `Play` call made by the match runner. -/
theorem createGame_zeroed_fields :
    CreateGame =
      { AScore := 0, BScore := 0, Round := 0,
        APrevious := 0, BPrevious := 0 } ∧
    (0 : Int) = Cooperate ∧
    (CreateGame.Play ⟨-1, -1⟩).APrevious = -1 ∧
    (CreateGame.Play ⟨-1, -1⟩).BPrevious = -1 ∧
    (-1 : Int) ≠ Cooperate ∧ (-1 : Int) ≠ Defect := by
  decide

/-- C8: playing the seeding round with any pair outside the choice
domain on a fresh game leaves both scores at 0, records the pair as the
previous choices and advances the round counter to 1. -/
theorem seeding_round_scores_unchanged (a b : Int)
    (ha0 : a ≠ Cooperate) (ha1 : a ≠ Defect)
    (hb0 : b ≠ Cooperate) (hb1 : b ≠ Defect) :
    CreateGame.Play ⟨a, b⟩ =
      { AScore := 0, BScore := 0, Round := 1,
        APrevious := a, BPrevious := b } := by
  simp [Game.Play, CreateGame, ha0, ha1, hb0, hb1]

/-- Evaluation of `seeding_round_scores_unchanged` at the sentinel pair
(-1, -1) actually used by `runGames`. -/
theorem seeding_round_scores_unchanged_witness :
    ((-1 : Int) ≠ Cooperate) ∧ ((-1 : Int) ≠ Defect) ∧
    ((-1 : Int) ≠ Cooperate) ∧ ((-1 : Int) ≠ Defect) ∧
    CreateGame.Play ⟨-1, -1⟩ =
      { AScore := 0, BScore := 0, Round := 1,
        APrevious := -1, BPrevious := -1 } :=
  ⟨by decide, by decide, by decide, by decide,
    seeding_round_scores_unchanged (-1) (-1)
      (by decide) (by decide) (by decide) (by decide)⟩

/-- One iteration of the win/loss/draw bookkeeping in `runGames`: after a
game ends, the win counter is incremented when A's final score exceeds
B's, the loss counter when it is smaller, the draw counter when they are
equal. -/
def tallyStep (acc : Nat × Nat × Nat) (p : Int × Int) : Nat × Nat × Nat :=
  (if p.1 > p.2 then acc.1 + 1 else acc.1,
   if p.1 < p.2 then acc.2.1 + 1 else acc.2.1,
   if p.1 = p.2 then acc.2.2 + 1 else acc.2.2)

/-- The (wins, losses, draws) counters accumulated by `runGames` over a
list of final (A score, B score) match results. -/
def tally (results : List (Int × Int)) : Nat × Nat × Nat :=
  results.foldl tallyStep (0, 0, 0)

/-- The percentage rates computed by `runGames`: a counter divided by the
number of games for that agent, times 100, in exact rational arithmetic. -/
def ratePercent (count total : Nat) : ℚ :=
  ((count : ℚ) / (total : ℚ)) * 100

/-- Each finished game increments exactly one of the three counters. -/
theorem tallyStep_sum (acc : Nat × Nat × Nat) (p : Int × Int) :
    (tallyStep acc p).1 + (tallyStep acc p).2.1 + (tallyStep acc p).2.2 =
      acc.1 + acc.2.1 + acc.2.2 + 1 := by
  simp only [tallyStep]
  split <;> split <;> split <;> omega

/-- Accumulator-generalised counting lemma for the tally fold. -/
theorem tally_foldl_sum (results : List (Int × Int)) :
    ∀ acc : Nat × Nat × Nat,
      (results.foldl tallyStep acc).1 + (results.foldl tallyStep acc).2.1 +
          (results.foldl tallyStep acc).2.2 =
        acc.1 + acc.2.1 + acc.2.2 + results.length := by
  induction results with
  | nil => intro acc; simp
  | cons p l ih =>
    intro acc
    simp only [List.foldl_cons, List.length_cons]
    rw [ih (tallyStep acc p), tallyStep_sum]
    omega

/-- The three counters always sum to the number of games counted. -/
theorem tally_sum (results : List (Int × Int)) :
    (tally results).1 + (tally results).2.1 + (tally results).2.2 =
      results.length := by
  have h := tally_foldl_sum results (0, 0, 0)
  simpa [tally] using h

/-- C9: over any list of finished games, wins + losses + draws equals
the number of games exactly, and the derived win, loss and draw
percentages each lie in [0, 100] and sum to exactly 100. -/
theorem tournament_tally_invariant (results : List (Int × Int))
    (h : 0 < results.length) :
    (tally results).1 + (tally results).2.1 + (tally results).2.2 =
      results.length ∧
    0 ≤ ratePercent (tally results).1 results.length ∧
    ratePercent (tally results).1 results.length ≤ 100 ∧
    0 ≤ ratePercent (tally results).2.1 results.length ∧
    ratePercent (tally results).2.1 results.length ≤ 100 ∧
    0 ≤ ratePercent (tally results).2.2 results.length ∧
    ratePercent (tally results).2.2 results.length ≤ 100 ∧
    ratePercent (tally results).1 results.length +
        ratePercent (tally results).2.1 results.length +
        ratePercent (tally results).2.2 results.length = 100 := by
  have hsum := tally_sum results
  have hlen : (0 : ℚ) < (results.length : ℚ) := by exact_mod_cast h
  have hrate : ∀ c : Nat, c ≤ results.length →
      0 ≤ ratePercent c results.length ∧
      ratePercent c results.length ≤ 100 := by
    intro c hc
    have hcq : (c : ℚ) ≤ (results.length : ℚ) := by exact_mod_cast hc
    constructor
    · unfold ratePercent
      positivity
    · unfold ratePercent
      rw [div_mul_eq_mul_div, div_le_iff₀ hlen]
      nlinarith
  have hw := hrate (tally results).1 (by omega)
  have hl := hrate (tally results).2.1 (by omega)
  have hd := hrate (tally results).2.2 (by omega)
  refine ⟨hsum, hw.1, hw.2, hl.1, hl.2, hd.1, hd.2, ?_⟩
  have hq : ((tally results).1 : ℚ) + ((tally results).2.1 : ℚ) +
      ((tally results).2.2 : ℚ) = (results.length : ℚ) := by
    exact_mod_cast hsum
  unfold ratePercent
  field_simp
  linarith [hq]

/-- Evaluation of `tournament_tally_invariant` on a concrete list with
one win, one draw and one loss. -/
theorem tournament_tally_invariant_witness :
    0 < ([((3 : Int), (1 : Int)), (0, 0), (1, 2)] : List (Int × Int)).length ∧
    ((tally [((3 : Int), (1 : Int)), (0, 0), (1, 2)]).1 +
        (tally [((3 : Int), (1 : Int)), (0, 0), (1, 2)]).2.1 +
        (tally [((3 : Int), (1 : Int)), (0, 0), (1, 2)]).2.2 =
      ([((3 : Int), (1 : Int)), (0, 0), (1, 2)] : List (Int × Int)).length ∧
    0 ≤ ratePercent (tally [((3 : Int), (1 : Int)), (0, 0), (1, 2)]).1
        ([((3 : Int), (1 : Int)), (0, 0), (1, 2)] : List (Int × Int)).length ∧
    ratePercent (tally [((3 : Int), (1 : Int)), (0, 0), (1, 2)]).1
        ([((3 : Int), (1 : Int)), (0, 0), (1, 2)] : List (Int × Int)).length ≤ 100 ∧
    0 ≤ ratePercent (tally [((3 : Int), (1 : Int)), (0, 0), (1, 2)]).2.1
        ([((3 : Int), (1 : Int)), (0, 0), (1, 2)] : List (Int × Int)).length ∧
    ratePercent (tally [((3 : Int), (1 : Int)), (0, 0), (1, 2)]).2.1
        ([((3 : Int), (1 : Int)), (0, 0), (1, 2)] : List (Int × Int)).length ≤ 100 ∧
    0 ≤ ratePercent (tally [((3 : Int), (1 : Int)), (0, 0), (1, 2)]).2.2
        ([((3 : Int), (1 : Int)), (0, 0), (1, 2)] : List (Int × Int)).length ∧
    ratePercent (tally [((3 : Int), (1 : Int)), (0, 0), (1, 2)]).2.2
        ([((3 : Int), (1 : Int)), (0, 0), (1, 2)] : List (Int × Int)).length ≤ 100 ∧
    ratePercent (tally [((3 : Int), (1 : Int)), (0, 0), (1, 2)]).1
        ([((3 : Int), (1 : Int)), (0, 0), (1, 2)] : List (Int × Int)).length +
      ratePercent (tally [((3 : Int), (1 : Int)), (0, 0), (1, 2)]).2.1
        ([((3 : Int), (1 : Int)), (0, 0), (1, 2)] : List (Int × Int)).length +
      ratePercent (tally [((3 : Int), (1 : Int)), (0, 0), (1, 2)]).2.2
        ([((3 : Int), (1 : Int)), (0, 0), (1, 2)] : List (Int × Int)).length = 100) :=
  ⟨by decide, tournament_tally_invariant [((3 : Int), (1 : Int)), (0, 0), (1, 2)]
    (by decide)⟩

/-- C10: the decisions of TitForTatBot and TitForTatBotReverse are
functions of the `aPrevious` field alone — two states agreeing on
`aPrevious` but arbitrary in `bPrevious` and `round` get identical
answers from both bots. -/
theorem titForTat_depends_only_on_aPrevious (s1 s2 : GameState)
    (h : s1.aPrevious = s2.aPrevious) :
    TitForTatBot.Decision s1 = TitForTatBot.Decision s2 ∧
    TitForTatBotReverse.Decision s1 = TitForTatBotReverse.Decision s2 := by
  simp [TitForTatBot.Decision, TitForTatBotReverse.Decision, h]

/-- Evaluation of `titForTat_depends_only_on_aPrevious` on two states
differing in `bPrevious` and `round`. -/
theorem titForTat_depends_only_on_aPrevious_witness :
    (⟨0, 5, 99⟩ : GameState).aPrevious = (⟨0, 7, 3⟩ : GameState).aPrevious ∧
    (TitForTatBot.Decision ⟨0, 5, 99⟩ = TitForTatBot.Decision ⟨0, 7, 3⟩ ∧
     TitForTatBotReverse.Decision ⟨0, 5, 99⟩ =
       TitForTatBotReverse.Decision ⟨0, 7, 3⟩) :=
  ⟨rfl, titForTat_depends_only_on_aPrevious ⟨0, 5, 99⟩ ⟨0, 7, 3⟩ rfl⟩
